import Mathlib

/-!
Verification of the SIFT_tracking repository core (utils.cpp, SIFT_opt_tracker.h).

The development shallowly embeds the tracking-window arithmetic
(`ModifyTrackingWindows`), the descriptor distance (`descr_dist_sq`) and the
Lucas–Kanade optical-flow estimator (`partial` / `getOptFlow`) of the source,
and proves / refutes the specification's claims about them.

Modelling conventions:
  * C `int` is `ℤ`; `double` is `ℚ` (exact-rational idealisation of the
    floating-point arithmetic).
  * An image (`IplImage*` accessed through `pixval8U`) is a total function
    from coordinates to intensities; the source leaves out-of-range pixel
    access undefined, the model makes every access read the function.
  * `TRACKING_WINDOW_SIZE` and `OPTICAL_FLOW_POINT_AREA` are configuration
    constants declared in a header that is not part of the sources at hand
    (`utils.h`); following the spec, which parametrises `ComputeWindow` by
    `paddingFraction` and the flow neighbourhood by a fixed constant, the
    embedding is parametrised by the rounded padding function
    `pad : ℤ → ℤ` (standing for `w ↦ cvRound(TRACKING_WINDOW_SIZE * w)`)
    and by the neighbourhood size `area : ℕ`.
-/


/-- A rectangle as in the source: fields `upper`, `left`, `width`, `height`,
all C `int`s. -/
structure Rect where
  upper : ℤ
  left : ℤ
  width : ℤ
  height : ℤ
  deriving DecidableEq, Repr

/-- The four initial assignments of `ModifyTrackingWindows` (utils.cpp:390-393):
pad the target rectangle.  `pad w` stands for
`cvRound(TRACKING_WINDOW_SIZE * w)`. -/
def padRectCode (pad : ℤ → ℤ) (trackingRect : Rect) : Rect :=
  { upper := trackingRect.upper - pad trackingRect.height
    left := trackingRect.left - pad trackingRect.width
    width := trackingRect.width + 2 * pad trackingRect.width
    height := trackingRect.height + 2 * pad trackingRect.height }

/-- First `if` of `ModifyTrackingWindows` (utils.cpp:395-399): negative top. -/
def clampTopCode (w : Rect) : Rect :=
  if w.upper < 0 then { w with height := w.height - |w.upper|, upper := 0 } else w

/-- Second `if` of `ModifyTrackingWindows` (utils.cpp:400-403): bottom beyond
the image height `H`. -/
def clampBottomCode (H : ℤ) (w : Rect) : Rect :=
  if w.upper + w.height > H then { w with height := w.height - |w.upper + w.height - H| } else w

/-- Third `if` of `ModifyTrackingWindows` (utils.cpp:404-408): negative left. -/
def clampLeftCode (w : Rect) : Rect :=
  if w.left < 0 then { w with width := w.width - |w.left|, left := 0 } else w

/-- Fourth `if` of `ModifyTrackingWindows` (utils.cpp:409-412): right edge
beyond the image width `W`. -/
def clampRightCode (W : ℤ) (w : Rect) : Rect :=
  if w.left + w.width > W then { w with width := w.width - |w.left + w.width - W| } else w

/-- Embedding of `ModifyTrackingWindows` (utils.cpp:388-413), as the value
stored into `*TrackingWindow`: the padding assignments followed by the four
clamping `if` blocks, in source order. -/
def ModifyTrackingWindows (pad : ℤ → ℤ) (trackingRect : Rect) (WholeImageSize : Rect) : Rect :=
  clampRightCode WholeImageSize.width
    (clampLeftCode
      (clampBottomCode WholeImageSize.height
        (clampTopCode (padRectCode pad trackingRect))))

/-- Modelled from the spec (§4.3 ComputeWindow): the padding stage — "window
extends by `paddingFraction × targetRect.width` on each horizontal side and
`paddingFraction × targetRect.height` on each vertical side (so total
width/height grows by `2 × paddingFraction × original`)", with `pad` the
rounded padding function. -/
def padRectSpec (pad : ℤ → ℤ) (target : Rect) : Rect :=
  { upper := target.upper - pad target.height
    left := target.left - pad target.width
    width := target.width + 2 * pad target.width
    height := target.height + 2 * pad target.height }

/-- Modelled from the spec (§4.3 ComputeWindow): the clamping stage — "if the
window's top/left is negative, shift it to 0 and reduce width/height by the
overflow amount (not translate — shrink); if bottom/right exceeds image
bounds, reduce width/height by the overflow amount".  The overflow of a
negative top is `0 - top`; this is the negative-top step. -/
def clampTopSpec (r : Rect) : Rect :=
  if r.upper < 0 then { r with upper := 0, height := r.height - (0 - r.upper) } else r

/-- Modelled from the spec (§4.3 ComputeWindow): "if bottom ... exceeds image
bounds, reduce ... height by the overflow amount". -/
def clampBottomSpec (H : ℤ) (r : Rect) : Rect :=
  if r.upper + r.height > H then { r with height := r.height - (r.upper + r.height - H) } else r

/-- Modelled from the spec (§4.3 ComputeWindow): "if the window's ... left is
negative, shift it to 0 and reduce width ... by the overflow amount". -/
def clampLeftSpec (r : Rect) : Rect :=
  if r.left < 0 then { r with left := 0, width := r.width - (0 - r.left) } else r

/-- Modelled from the spec (§4.3 ComputeWindow): "if ... right exceeds image
bounds, reduce width ... by the overflow amount". -/
def clampRightSpec (W : ℤ) (r : Rect) : Rect :=
  if r.left + r.width > W then { r with width := r.width - (r.left + r.width - W) } else r

/-- Modelled from the spec (§4.3 ComputeWindow): the full clamping stage. -/
def clampRectSpec (img : Rect) (r : Rect) : Rect :=
  clampRightSpec img.width (clampLeftSpec (clampBottomSpec img.height (clampTopSpec r)))

/-- Embedding of the inline tracking-window computation of the
`SIFT_opt_tracker` constructor (SIFT_opt_tracker.h:16-19): same `upper` and
`left` as `ModifyTrackingWindows`, but `width`/`height` grow by a single
padding amount and no clamping is performed (the constructor receives no
image bounds). -/
def constructorWindow (pad : ℤ → ℤ) (trackingRect : Rect) : Rect :=
  { upper := trackingRect.upper - pad trackingRect.height
    left := trackingRect.left - pad trackingRect.width
    width := trackingRect.width + pad trackingRect.width
    height := trackingRect.height + pad trackingRect.height }

/-- Procedural model of `ModifyTrackingWindows`: the state visible to the
function is the triple `(trackingRect, *TrackingWindow, WholeImageSize)` of
its three parameters.  Each statement of the body is one step function on
this state.  Assignment `TrackingWindow->upper = ...` (utils.cpp:390). -/
def procStmtUpper (pad : ℤ → ℤ) (s : Rect × Rect × Rect) : Rect × Rect × Rect :=
  (s.1, { s.2.1 with upper := s.1.upper - pad s.1.height }, s.2.2)

/-- Assignment `TrackingWindow->left = ...` (utils.cpp:391). -/
def procStmtLeft (pad : ℤ → ℤ) (s : Rect × Rect × Rect) : Rect × Rect × Rect :=
  (s.1, { s.2.1 with left := s.1.left - pad s.1.width }, s.2.2)

/-- Assignment `TrackingWindow->width = ...` (utils.cpp:392). -/
def procStmtWidth (pad : ℤ → ℤ) (s : Rect × Rect × Rect) : Rect × Rect × Rect :=
  (s.1, { s.2.1 with width := s.1.width + 2 * pad s.1.width }, s.2.2)

/-- Assignment `TrackingWindow->height = ...` (utils.cpp:393). -/
def procStmtHeight (pad : ℤ → ℤ) (s : Rect × Rect × Rect) : Rect × Rect × Rect :=
  (s.1, { s.2.1 with height := s.1.height + 2 * pad s.1.height }, s.2.2)

/-- First `if` block (utils.cpp:395-399). -/
def procStmtClampTop (s : Rect × Rect × Rect) : Rect × Rect × Rect :=
  if s.2.1.upper < 0 then
    (s.1, { s.2.1 with height := s.2.1.height - |s.2.1.upper|, upper := 0 }, s.2.2)
  else s

/-- Second `if` block (utils.cpp:400-403). -/
def procStmtClampBottom (s : Rect × Rect × Rect) : Rect × Rect × Rect :=
  if s.2.1.upper + s.2.1.height > s.2.2.height then
    (s.1, { s.2.1 with height := s.2.1.height - |s.2.1.upper + s.2.1.height - s.2.2.height| },
      s.2.2)
  else s

/-- Third `if` block (utils.cpp:404-408). -/
def procStmtClampLeft (s : Rect × Rect × Rect) : Rect × Rect × Rect :=
  if s.2.1.left < 0 then
    (s.1, { s.2.1 with width := s.2.1.width - |s.2.1.left|, left := 0 }, s.2.2)
  else s

/-- Fourth `if` block (utils.cpp:409-412). -/
def procStmtClampRight (s : Rect × Rect × Rect) : Rect × Rect × Rect :=
  if s.2.1.left + s.2.1.width > s.2.2.width then
    (s.1, { s.2.1 with width := s.2.1.width - |s.2.1.left + s.2.1.width - s.2.2.width| }, s.2.2)
  else s

/-- The whole body of `ModifyTrackingWindows` as a state transformer on
`(trackingRect, *TrackingWindow, WholeImageSize)`, statements in source
order. -/
def ModifyTrackingWindowsProc (pad : ℤ → ℤ) (trackingRect TrackingWindow WholeImageSize : Rect) :
    Rect × Rect × Rect :=
  procStmtClampRight
    (procStmtClampLeft
      (procStmtClampBottom
        (procStmtClampTop
          (procStmtHeight pad
            (procStmtWidth pad
              (procStmtLeft pad
                (procStmtUpper pad (trackingRect, TrackingWindow, WholeImageSize))))))))

/-- A SIFT feature as far as `descr_dist_sq` reads it: descriptor
dimensionality `d` and the descriptor array `descr` (array modelled as a
function from index to value). -/
structure SIFT_feature_unit where
  d : ℕ
  descr : ℕ → ℚ

/-- The largest finite `double`, `DBL_MAX = (2 − 2⁻⁵²)·2¹⁰²³`, as an exact
rational. -/
def DBL_MAX : ℚ := 2 ^ 1024 - 2 ^ 971

/-- Embedding of `descr_dist_sq` (utils.cpp:368-386): if the dimensionalities
mismatch return `DBL_MAX`, otherwise accumulate `diff*diff` over the `d`
descriptor entries in loop order. -/
def descr_dist_sq (f1 f2 : SIFT_feature_unit) : ℚ :=
  if f2.d ≠ f1.d then DBL_MAX
  else
    (((List.range f1.d).map fun i => (f1.descr i - f2.descr i) * (f1.descr i - f2.descr i)).sum)

/-- A grayscale frame: the raw pixel read `pixval8U(img, r, c)` is modelled
as the total function application `img r c` (the source leaves out-of-range
access undefined; the model reads the function everywhere). -/
abbrev Image := ℚ → ℚ → ℚ

/-- `Point2D`: two doubles carrying either an image position `(row, col)` or
a displacement/gradient `(drow, dcol)` — the spec's two interchangeable
interpretations of the same storage. -/
structure Point2D where
  row : ℚ
  col : ℚ
  deriving DecidableEq

/-- The `drow` view of a `Point2D` (same storage as `row`). -/
def Point2D.drow (p : Point2D) : ℚ := p.row

/-- The `dcol` view of a `Point2D` (same storage as `col`). -/
def Point2D.dcol (p : Point2D) : ℚ := p.col

/-- Embedding of `partial` (utils.cpp:423-429): the central-difference
gradient of image `ipIm` at `p` — `dcol = (I(row,col+1) − I(row,col−1))/2`,
`drow = (I(row+1,col) − I(row−1,col))/2`.  (`partial` is a C++ keyword-free
name there but reserved in Lean, hence the name `imGrad`.) -/
def imGrad (ipIm : Image) (p : Point2D) : Point2D :=
  { row := (ipIm (p.row + 1) p.col - ipIm (p.row - 1) p.col) / 2
    col := (ipIm p.row (p.col + 1) - ipIm p.row (p.col - 1)) / 2 }

/-- The loop index values of `getOptFlow` (utils.cpp:442-444): `i` starts at
`-OPTICAL_FLOW_POINT_AREA/2` and runs while `i < OPTICAL_FLOW_POINT_AREA/2`,
i.e. the integers `-h, -h+1, ..., h-1` with `h := area / 2` (C integer
division). -/
def idxList (area : ℕ) : List ℤ :=
  (List.range (2 * (area / 2))).map fun (k : ℕ) => ((k : ℤ) - ((area / 2 : ℕ) : ℤ))

/-- The offsets `(i, j)` enumerated by the two nested loops of `getOptFlow`,
in row-major source order. -/
def offsetPairs (area : ℕ) : List (ℤ × ℤ) :=
  List.product (idxList area) (idxList area)

/-- The neighbourhood pixel `(p.row + i, p.col + j)` probed at offset
`ij = (i, j)`. -/
def ptOff (p : Point2D) (ij : ℤ × ℤ) : Point2D :=
  ⟨p.row + (ij.1 : ℚ), p.col + (ij.2 : ℚ)⟩

/-- Accumulator `M11 += temp.dcol*temp.dcol` of `getOptFlow` (utils.cpp:447). -/
def flowM11 (currentFrame : Image) (p : Point2D) (area : ℕ) : ℚ :=
  ((offsetPairs area).map fun ij =>
    (imGrad currentFrame (ptOff p ij)).dcol * (imGrad currentFrame (ptOff p ij)).dcol).sum

/-- Accumulator `M12 += temp.dcol*temp.drow` of `getOptFlow` (utils.cpp:448). -/
def flowM12 (currentFrame : Image) (p : Point2D) (area : ℕ) : ℚ :=
  ((offsetPairs area).map fun ij =>
    (imGrad currentFrame (ptOff p ij)).dcol * (imGrad currentFrame (ptOff p ij)).drow).sum

/-- Accumulator `M22 += temp.drow*temp.drow` of `getOptFlow` (utils.cpp:449). -/
def flowM22 (currentFrame : Image) (p : Point2D) (area : ℕ) : ℚ :=
  ((offsetPairs area).map fun ij =>
    (imGrad currentFrame (ptOff p ij)).drow * (imGrad currentFrame (ptOff p ij)).drow).sum

/-- Accumulator `b[0] += temp.dcol*(I_cur − I_prev)` of `getOptFlow`
(utils.cpp:450). -/
def flowB0 (currentFrame : Image) (p : Point2D) (preFrame : Image) (area : ℕ) : ℚ :=
  ((offsetPairs area).map fun ij =>
    (imGrad currentFrame (ptOff p ij)).dcol *
      (currentFrame (ptOff p ij).row (ptOff p ij).col -
        preFrame (ptOff p ij).row (ptOff p ij).col)).sum

/-- Accumulator `b[1] += temp.drow*(I_cur − I_prev)` of `getOptFlow`
(utils.cpp:451). -/
def flowB1 (currentFrame : Image) (p : Point2D) (preFrame : Image) (area : ℕ) : ℚ :=
  ((offsetPairs area).map fun ij =>
    (imGrad currentFrame (ptOff p ij)).drow *
      (currentFrame (ptOff p ij).row (ptOff p ij).col -
        preFrame (ptOff p ij).row (ptOff p ij).col)).sum

/-- Model of the OpenCV call `cvInvert(&M, Mi, CV_SVD)` on the 2×2 matrix
`(m11 m12; m21 m22)` (utils.cpp:457): the SVD-based inversion computes the
Moore–Penrose pseudo-inverse, here idealised over exact rationals — the true
inverse when the determinant is nonzero, and `Aᵀ / ‖A‖_F²` in the rank ≤ 1
case (for the zero matrix the rational division by zero yields the zero
matrix, which is the pseudo-inverse of the zero matrix). -/
def pinv2 (m11 m12 m21 m22 : ℚ) : ℚ × ℚ × ℚ × ℚ :=
  if m11 * m22 - m12 * m21 = 0 then
    (m11 / (m11 * m11 + m12 * m12 + m21 * m21 + m22 * m22),
      m21 / (m11 * m11 + m12 * m12 + m21 * m21 + m22 * m22),
      m12 / (m11 * m11 + m12 * m12 + m21 * m21 + m22 * m22),
      m22 / (m11 * m11 + m12 * m12 + m21 * m21 + m22 * m22))
  else
    (m22 / (m11 * m22 - m12 * m21), -m12 / (m11 * m22 - m12 * m21),
      -m21 / (m11 * m22 - m12 * m21), m11 / (m11 * m22 - m12 * m21))

/-- Embedding of `getOptFlow` (utils.cpp:435-469): accumulate the 2×2
structure matrix `M = (M11 M12; M12 M22)` and the vector `b` over the
neighbourhood, invert `M` via SVD, multiply by `−b`
(`b[0] = -b[0]; b[1] = -b[1]; cvMatMul(Mi, &Mb, Mr)`), and return
`Point2D(vy, vx)` — row component `vy = Mr[1][0]`, col component
`vx = Mr[0][0]`. -/
def getOptFlow (currentFrame : Image) (p : Point2D) (preFrame : Image) (area : ℕ) : Point2D :=
  let M11 := flowM11 currentFrame p area
  let M12 := flowM12 currentFrame p area
  let M22 := flowM22 currentFrame p area
  let b0 := flowB0 currentFrame p preFrame area
  let b1 := flowB1 currentFrame p preFrame area
  let Mi := pinv2 M11 M12 M12 M22
  let vx := Mi.1 * (-b0) + Mi.2.1 * (-b1)
  let vy := Mi.2.2.1 * (-b0) + Mi.2.2.2 * (-b1)
  { row := vy, col := vx }

/-- Modelled from the spec (§4.2): the central-difference derivative in the
column direction, `gx = (I(row, col+1) − I(row, col−1)) / 2`. -/
def gxSpec (I : Image) (r c : ℚ) : ℚ := (I r (c + 1) - I r (c - 1)) / 2

/-- Modelled from the spec (§4.2): the central-difference derivative in the
row direction, `gy = (I(row+1, col) − I(row−1, col)) / 2`. -/
def gySpec (I : Image) (r c : ℚ) : ℚ := (I (r + 1) c - I (r - 1) c) / 2

/-- Modelled from the spec (§4.2): `Σ gx²` over the neighbourhood. -/
def specM11 (I : Image) (p : Point2D) (area : ℕ) : ℚ :=
  ((offsetPairs area).map fun ij =>
    gxSpec I (p.row + (ij.1 : ℚ)) (p.col + (ij.2 : ℚ)) ^ 2).sum

/-- Modelled from the spec (§4.2): `Σ gx·gy` over the neighbourhood. -/
def specM12 (I : Image) (p : Point2D) (area : ℕ) : ℚ :=
  ((offsetPairs area).map fun ij =>
    gxSpec I (p.row + (ij.1 : ℚ)) (p.col + (ij.2 : ℚ)) *
      gySpec I (p.row + (ij.1 : ℚ)) (p.col + (ij.2 : ℚ))).sum

/-- Modelled from the spec (§4.2): `Σ gy²` over the neighbourhood. -/
def specM22 (I : Image) (p : Point2D) (area : ℕ) : ℚ :=
  ((offsetPairs area).map fun ij =>
    gySpec I (p.row + (ij.1 : ℚ)) (p.col + (ij.2 : ℚ)) ^ 2).sum

/-- Modelled from the spec (§4.2): `Σ gx·(I_cur − I_prev)` over the
neighbourhood. -/
def specB0 (I : Image) (p : Point2D) (pre : Image) (area : ℕ) : ℚ :=
  ((offsetPairs area).map fun ij =>
    gxSpec I (p.row + (ij.1 : ℚ)) (p.col + (ij.2 : ℚ)) *
      (I (p.row + (ij.1 : ℚ)) (p.col + (ij.2 : ℚ)) -
        pre (p.row + (ij.1 : ℚ)) (p.col + (ij.2 : ℚ)))).sum

/-- Modelled from the spec (§4.2): `Σ gy·(I_cur − I_prev)` over the
neighbourhood. -/
def specB1 (I : Image) (p : Point2D) (pre : Image) (area : ℕ) : ℚ :=
  ((offsetPairs area).map fun ij =>
    gySpec I (p.row + (ij.1 : ℚ)) (p.col + (ij.2 : ℚ)) *
      (I (p.row + (ij.1 : ℚ)) (p.col + (ij.2 : ℚ)) -
        pre (p.row + (ij.1 : ℚ)) (p.col + (ij.2 : ℚ)))).sum

lemma clampTopCode_eq_spec (w : Rect) : clampTopCode w = clampTopSpec w := by
  unfold clampTopCode clampTopSpec
  split_ifs with h
  · rw [abs_of_neg h]; simp [Rect.mk.injEq]
  · rfl

lemma clampBottomCode_eq_spec (H : ℤ) (w : Rect) : clampBottomCode H w = clampBottomSpec H w := by
  unfold clampBottomCode clampBottomSpec
  split_ifs with h
  · rw [abs_of_pos (by omega)]
  · rfl

lemma clampLeftCode_eq_spec (w : Rect) : clampLeftCode w = clampLeftSpec w := by
  unfold clampLeftCode clampLeftSpec
  split_ifs with h
  · rw [abs_of_neg h]; simp [Rect.mk.injEq]
  · rfl

lemma clampRightCode_eq_spec (W : ℤ) (w : Rect) : clampRightCode W w = clampRightSpec W w := by
  unfold clampRightCode clampRightSpec
  split_ifs with h
  · rw [abs_of_pos (by omega)]
  · rfl

/-- Claim C2: `ModifyTrackingWindows` is exactly the spec's two-stage
computation — pad by `paddingFraction × size` on each side (total growth
twice that), then clamp a negative top/left by shrinking (not translating)
and shrink at the bottom/right image bounds. -/
theorem C2_modify_is_pad_then_clamp (pad : ℤ → ℤ) (rect img : Rect) :
    ModifyTrackingWindows pad rect img = clampRectSpec img (padRectSpec pad rect) := by
  unfold ModifyTrackingWindows clampRectSpec
  rw [clampTopCode_eq_spec, clampBottomCode_eq_spec, clampLeftCode_eq_spec,
    clampRightCode_eq_spec]
  rfl

lemma clampTopCode_upper_nonneg (w : Rect) : 0 ≤ (clampTopCode w).upper := by
  unfold clampTopCode
  split_ifs with h
  · exact le_refl 0
  · show 0 ≤ w.upper
    omega

lemma clampBottomCode_upper (H : ℤ) (w : Rect) : (clampBottomCode H w).upper = w.upper := by
  unfold clampBottomCode
  split_ifs <;> rfl

lemma clampBottomCode_sum_le (H : ℤ) (w : Rect) :
    (clampBottomCode H w).upper + (clampBottomCode H w).height ≤ H := by
  unfold clampBottomCode
  split_ifs with h
  · show w.upper + (w.height - |w.upper + w.height - H|) ≤ H
    rcases abs_cases (w.upper + w.height - H) with ⟨h1, h2⟩ | ⟨h1, h2⟩ <;> omega
  · show w.upper + w.height ≤ H
    omega

lemma clampLeftCode_upper (w : Rect) : (clampLeftCode w).upper = w.upper := by
  unfold clampLeftCode
  split_ifs <;> rfl

lemma clampLeftCode_height (w : Rect) : (clampLeftCode w).height = w.height := by
  unfold clampLeftCode
  split_ifs <;> rfl

lemma clampLeftCode_left_nonneg (w : Rect) : 0 ≤ (clampLeftCode w).left := by
  unfold clampLeftCode
  split_ifs with h
  · exact le_refl 0
  · show 0 ≤ w.left
    omega

lemma clampRightCode_upper (W : ℤ) (w : Rect) : (clampRightCode W w).upper = w.upper := by
  unfold clampRightCode
  split_ifs <;> rfl

lemma clampRightCode_height (W : ℤ) (w : Rect) : (clampRightCode W w).height = w.height := by
  unfold clampRightCode
  split_ifs <;> rfl

lemma clampRightCode_left (W : ℤ) (w : Rect) : (clampRightCode W w).left = w.left := by
  unfold clampRightCode
  split_ifs <;> rfl

lemma clampRightCode_sum_le (W : ℤ) (w : Rect) :
    (clampRightCode W w).left + (clampRightCode W w).width ≤ W := by
  unfold clampRightCode
  split_ifs with h
  · show w.left + (w.width - |w.left + w.width - W|) ≤ W
    rcases abs_cases (w.left + w.width - W) with ⟨h1, h2⟩ | ⟨h1, h2⟩ <;> omega
  · show w.left + w.width ≤ W
    omega

/-- The clamped window always has nonnegative top/left and never extends past
the bottom/right image bounds (its width/height, however, may be negative). -/
lemma mtw_inside (pad : ℤ → ℤ) (rect img : Rect) :
    0 ≤ (ModifyTrackingWindows pad rect img).upper ∧
    0 ≤ (ModifyTrackingWindows pad rect img).left ∧
    (ModifyTrackingWindows pad rect img).upper + (ModifyTrackingWindows pad rect img).height ≤
      img.height ∧
    (ModifyTrackingWindows pad rect img).left + (ModifyTrackingWindows pad rect img).width ≤
      img.width := by
  unfold ModifyTrackingWindows
  refine ⟨?_, ?_, ?_, ?_⟩
  · rw [clampRightCode_upper, clampLeftCode_upper, clampBottomCode_upper]
    exact clampTopCode_upper_nonneg _
  · rw [clampRightCode_left]
    exact clampLeftCode_left_nonneg _
  · rw [clampRightCode_upper, clampRightCode_height, clampLeftCode_upper, clampLeftCode_height]
    exact clampBottomCode_sum_le _ _
  · exact clampRightCode_sum_le _ _

/-- A rectangle already satisfying all four clamping invariants passes the
clamping chain unchanged. -/
lemma clampChain_eq_self (H W : ℤ) (r : Rect) (h1 : 0 ≤ r.upper) (h2 : r.upper + r.height ≤ H)
    (h3 : 0 ≤ r.left) (h4 : r.left + r.width ≤ W) :
    clampRightCode W (clampLeftCode (clampBottomCode H (clampTopCode r))) = r := by
  unfold clampTopCode clampBottomCode clampLeftCode clampRightCode
  rw [if_neg (show ¬r.upper < 0 by omega)]
  rw [if_neg (show ¬r.upper + r.height > H by omega)]
  rw [if_neg (show ¬r.left < 0 by omega)]
  rw [if_neg (show ¬r.left + r.width > W by omega)]

lemma padRectCode_zero (r : Rect) : padRectCode (fun _ => 0) r = r := by
  simp [padRectCode]

/-- Claim C3 counterexample: for a zero-sized target placed below the image
(top 10 in a 5×5 image; padding of a zero extent is `cvRound(0) = 0`
whatever `TRACKING_WINDOW_SIZE` is) the clamped window has height −5, so the
claimed invariant `width ≥ 0 ∧ height ≥ 0 ∧ ...` fails. -/
theorem C3_counterexample :
    ¬ (0 ≤ (ModifyTrackingWindows (fun _ => 0) ⟨10, 0, 0, 0⟩ ⟨0, 0, 5, 5⟩).width ∧
       0 ≤ (ModifyTrackingWindows (fun _ => 0) ⟨10, 0, 0, 0⟩ ⟨0, 0, 5, 5⟩).height ∧
       0 ≤ (ModifyTrackingWindows (fun _ => 0) ⟨10, 0, 0, 0⟩ ⟨0, 0, 5, 5⟩).upper ∧
       0 ≤ (ModifyTrackingWindows (fun _ => 0) ⟨10, 0, 0, 0⟩ ⟨0, 0, 5, 5⟩).left ∧
       (ModifyTrackingWindows (fun _ => 0) ⟨10, 0, 0, 0⟩ ⟨0, 0, 5, 5⟩).upper +
         (ModifyTrackingWindows (fun _ => 0) ⟨10, 0, 0, 0⟩ ⟨0, 0, 5, 5⟩).height ≤ 5 ∧
       (ModifyTrackingWindows (fun _ => 0) ⟨10, 0, 0, 0⟩ ⟨0, 0, 5, 5⟩).left +
         (ModifyTrackingWindows (fun _ => 0) ⟨10, 0, 0, 0⟩ ⟨0, 0, 5, 5⟩).width ≤ 5) := by
  decide

/-- Claim C3 (amended): for every target rectangle and image bounds the
window returned by `ModifyTrackingWindows` has `top ≥ 0`, `left ≥ 0`,
`top + height ≤ imageHeight` and `left + width ≤ imageWidth`; `width` and
`height` themselves may be negative (degenerate windows for targets at or
beyond image borders). -/
theorem C3_window_inside_bounds (pad : ℤ → ℤ) (rect img : Rect) :
    0 ≤ (ModifyTrackingWindows pad rect img).upper ∧
    0 ≤ (ModifyTrackingWindows pad rect img).left ∧
    (ModifyTrackingWindows pad rect img).upper + (ModifyTrackingWindows pad rect img).height ≤
      img.height ∧
    (ModifyTrackingWindows pad rect img).left + (ModifyTrackingWindows pad rect img).width ≤
      img.width :=
  mtw_inside pad rect img

/-- Claim C8 counterexample: with padding fraction 1 (`pad = id`), the window
computed for target `(10,10,10,10)` in a 100×100 image is `(0,0,30,30)`;
feeding that already-clamped output back into `ModifyTrackingWindows` pads
it again and returns `(0,0,60,60)`, so the function is not idempotent. -/
theorem C8_counterexample :
    ModifyTrackingWindows (fun w => w)
        (ModifyTrackingWindows (fun w => w) ⟨10, 10, 10, 10⟩ ⟨0, 0, 100, 100⟩)
        ⟨0, 0, 100, 100⟩ ≠
      ModifyTrackingWindows (fun w => w) ⟨10, 10, 10, 10⟩ ⟨0, 0, 100, 100⟩ := by
  decide

/-- Claim C8 (amended): `ModifyTrackingWindows` is not idempotent because it
re-applies the padding stage; what holds is that its output is a fixed point
of the clamping stage — re-running `ModifyTrackingWindows` with zero padding
(pure clamping) on an already-computed window returns that window. -/
theorem C8_clamp_fixed_point (pad : ℤ → ℤ) (rect img : Rect) :
    ModifyTrackingWindows (fun _ => 0) (ModifyTrackingWindows pad rect img) img =
      ModifyTrackingWindows pad rect img := by
  obtain ⟨h1, h2, h3, h4⟩ := mtw_inside pad rect img
  show clampRightCode img.width
      (clampLeftCode
        (clampBottomCode img.height
          (clampTopCode (padRectCode (fun _ => 0) (ModifyTrackingWindows pad rect img))))) = _
  rw [padRectCode_zero]
  exact clampChain_eq_self _ _ _ h1 h3 h2 h4

/-- Claim C4 counterexample: for target `(10,10,10,10)` in a 100×100 image
with padding fraction 1, `ModifyTrackingWindows` yields `(0,0,30,30)` while
the constructor's inline computation yields `(0,0,20,20)`: the two are not
equivalent. -/
theorem C4_counterexample :
    constructorWindow (fun w => w) ⟨10, 10, 10, 10⟩ ≠
      ModifyTrackingWindows (fun w => w) ⟨10, 10, 10, 10⟩ ⟨0, 0, 100, 100⟩ := by
  decide

/-- Claim C4 (amended): even when the padded window lies fully inside the
image (so that clamping is a no-op and cannot account for any difference),
the constructor's inline window agrees with `ModifyTrackingWindows` only in
`upper` and `left`; its `width` and `height` are smaller by exactly one
padding amount (`pad width` / `pad height`), because the constructor adds the
padding once instead of twice and performs no clamping. -/
theorem C4_constructor_vs_manager (pad : ℤ → ℤ) (rect img : Rect)
    (h1 : 0 ≤ (padRectCode pad rect).upper)
    (h2 : (padRectCode pad rect).upper + (padRectCode pad rect).height ≤ img.height)
    (h3 : 0 ≤ (padRectCode pad rect).left)
    (h4 : (padRectCode pad rect).left + (padRectCode pad rect).width ≤ img.width) :
    (ModifyTrackingWindows pad rect img).upper = (constructorWindow pad rect).upper ∧
    (ModifyTrackingWindows pad rect img).left = (constructorWindow pad rect).left ∧
    (ModifyTrackingWindows pad rect img).width =
      (constructorWindow pad rect).width + pad rect.width ∧
    (ModifyTrackingWindows pad rect img).height =
      (constructorWindow pad rect).height + pad rect.height := by
  have hc : ModifyTrackingWindows pad rect img = padRectCode pad rect :=
    clampChain_eq_self _ _ _ h1 h2 h3 h4
  rw [hc]
  refine ⟨rfl, rfl, ?_, ?_⟩
  · show rect.width + 2 * pad rect.width = rect.width + pad rect.width + pad rect.width
    ring
  · show rect.height + 2 * pad rect.height = rect.height + pad rect.height + pad rect.height
    ring

/-- Witness for C4 (amended) at padding fraction 1, target `(10,10,5,5)`,
image 100×100. -/
theorem C4_witness :
    (ModifyTrackingWindows (fun w => w) ⟨10, 10, 5, 5⟩ ⟨0, 0, 100, 100⟩).upper =
      (constructorWindow (fun w => w) ⟨10, 10, 5, 5⟩).upper ∧
    (ModifyTrackingWindows (fun w => w) ⟨10, 10, 5, 5⟩ ⟨0, 0, 100, 100⟩).left =
      (constructorWindow (fun w => w) ⟨10, 10, 5, 5⟩).left ∧
    (ModifyTrackingWindows (fun w => w) ⟨10, 10, 5, 5⟩ ⟨0, 0, 100, 100⟩).width =
      (constructorWindow (fun w => w) ⟨10, 10, 5, 5⟩).width + 5 ∧
    (ModifyTrackingWindows (fun w => w) ⟨10, 10, 5, 5⟩ ⟨0, 0, 100, 100⟩).height =
      (constructorWindow (fun w => w) ⟨10, 10, 5, 5⟩).height + 5 :=
  C4_constructor_vs_manager (fun w => w) ⟨10, 10, 5, 5⟩ ⟨0, 0, 100, 100⟩
    (by decide) (by decide) (by decide) (by decide)

/-- Claim C9: a call to `ModifyTrackingWindows` writes only the output
`*TrackingWindow`: the final state keeps the target rectangle and the
whole-image rectangle unchanged, and the middle component is exactly the
window value of the pure embedding. -/
theorem C9_only_window_written (pad : ℤ → ℤ) (trackingRect TrackingWindow WholeImageSize : Rect) :
    ModifyTrackingWindowsProc pad trackingRect TrackingWindow WholeImageSize =
      (trackingRect, ModifyTrackingWindows pad trackingRect WholeImageSize, WholeImageSize) := by
  unfold ModifyTrackingWindowsProc procStmtClampRight procStmtClampLeft procStmtClampBottom
    procStmtClampTop procStmtHeight procStmtWidth procStmtLeft procStmtUpper
  unfold ModifyTrackingWindows clampRightCode clampLeftCode clampBottomCode clampTopCode
    padRectCode
  dsimp only
  split_ifs <;> rfl

lemma list_range_map_sum (n : ℕ) (f : ℕ → ℚ) :
    ((List.range n).map f).sum = ∑ i ∈ Finset.range n, f i := by
  induction n with
  | zero => rfl
  | succ k ih =>
    rw [List.range_succ, List.map_append, List.sum_append, Finset.sum_range_succ, ih]
    simp

/-- Claim C6: `descr_dist_sq` returns the sum of squared per-dimension
differences of the two descriptors when the dimensionalities agree, and the
unbounded value `DBL_MAX` (disqualifying the pair, not an error) when they
mismatch. -/
theorem C6_descr_dist_sq_spec (f1 f2 : SIFT_feature_unit) :
    descr_dist_sq f1 f2 =
      if f1.d = f2.d then ∑ i ∈ Finset.range f1.d, (f1.descr i - f2.descr i) ^ 2
      else DBL_MAX := by
  unfold descr_dist_sq
  rcases eq_or_ne f1.d f2.d with h | h
  · rw [if_neg (by omega), if_pos h, list_range_map_sum]
    exact Finset.sum_congr rfl fun i _ => (sq (f1.descr i - f2.descr i)).symm
  · rw [if_pos (by omega), if_neg h]

lemma mem_idxList_iff (area : ℕ) (i : ℤ) :
    i ∈ idxList area ↔ -((area / 2 : ℕ) : ℤ) ≤ i ∧ i < ((area / 2 : ℕ) : ℤ) := by
  unfold idxList
  rw [List.mem_map]
  constructor
  · rintro ⟨k, hk, rfl⟩
    rw [List.mem_range] at hk
    omega
  · rintro ⟨h1, h2⟩
    refine ⟨(i + ((area / 2 : ℕ) : ℤ)).toNat, ?_, ?_⟩
    · rw [List.mem_range]
      omega
    · omega

lemma mem_offsetPairs (area : ℕ) (ij : ℤ × ℤ) (hmem : ij ∈ offsetPairs area) :
    -((area / 2 : ℕ) : ℤ) ≤ ij.1 ∧ ij.1 < ((area / 2 : ℕ) : ℤ) ∧
    -((area / 2 : ℕ) : ℤ) ≤ ij.2 ∧ ij.2 < ((area / 2 : ℕ) : ℤ) := by
  obtain ⟨i, j⟩ := ij
  rw [offsetPairs, List.pair_mem_product, mem_idxList_iff, mem_idxList_iff] at hmem
  exact ⟨hmem.1.1, hmem.1.2, hmem.2.1, hmem.2.2⟩

lemma idxList_nodup (area : ℕ) : (idxList area).Nodup := by
  unfold idxList
  refine List.Nodup.map ?_ (List.nodup_range _)
  intro a b hab
  dsimp only at hab
  omega

/-- Claim C5 counterexample: with `OPTICAL_FLOW_POINT_AREA = 2` (half-width
`h = 1`) the offset `(1, 0)` satisfies `-h ≤ i ≤ h ∧ -h ≤ j ≤ h` but is not
visited by the accumulation loops, which run only while `i < h`: the claimed
closed symmetric square overstates the neighbourhood. -/
theorem C5_counterexample :
    ¬ (((1, 0) : ℤ × ℤ) ∈ offsetPairs 2 ↔
        (-(((2 / 2 : ℕ) : ℤ)) ≤ 1 ∧ (1 : ℤ) ≤ ((2 / 2 : ℕ) : ℤ) ∧
          -(((2 / 2 : ℕ) : ℤ)) ≤ 0 ∧ (0 : ℤ) ≤ ((2 / 2 : ℕ) : ℤ))) := by
  decide

/-- Claim C5 (amended): the accumulation of `getOptFlow` ranges over each
offset of the half-open square `[-h, h-1] × [-h, h-1]`
(`h = OPTICAL_FLOW_POINT_AREA/2`) exactly once — the enumerated offset list
is duplicate-free and contains exactly those offsets.  The offsets with
`i = h` or `j = h`, included by the claim's closed symmetric square, are not
visited. -/
theorem C5_neighborhood (area : ℕ) (ij : ℤ × ℤ) :
    (offsetPairs area).Nodup ∧
    (ij ∈ offsetPairs area ↔
      -((area / 2 : ℕ) : ℤ) ≤ ij.1 ∧ ij.1 ≤ ((area / 2 : ℕ) : ℤ) - 1 ∧
      -((area / 2 : ℕ) : ℤ) ≤ ij.2 ∧ ij.2 ≤ ((area / 2 : ℕ) : ℤ) - 1) := by
  constructor
  · exact (idxList_nodup area).product (idxList_nodup area)
  · obtain ⟨i, j⟩ := ij
    rw [offsetPairs, List.pair_mem_product, mem_idxList_iff, mem_idxList_iff]
    constructor
    · rintro ⟨⟨a, b⟩, c, d⟩
      exact ⟨a, by omega, c, by omega⟩
    · rintro ⟨a, b, c, d⟩
      exact ⟨⟨a, by omega⟩, c, by omega⟩

lemma flowM11_eq_spec (cur : Image) (p : Point2D) (area : ℕ) :
    flowM11 cur p area = specM11 cur p area := by
  unfold flowM11 specM11
  refine congrArg List.sum (List.map_congr_left fun ij _ => ?_)
  show gxSpec cur (p.row + (ij.1 : ℚ)) (p.col + (ij.2 : ℚ)) *
      gxSpec cur (p.row + (ij.1 : ℚ)) (p.col + (ij.2 : ℚ)) =
    gxSpec cur (p.row + (ij.1 : ℚ)) (p.col + (ij.2 : ℚ)) ^ 2
  ring

lemma flowM12_eq_spec (cur : Image) (p : Point2D) (area : ℕ) :
    flowM12 cur p area = specM12 cur p area :=
  rfl

lemma flowM22_eq_spec (cur : Image) (p : Point2D) (area : ℕ) :
    flowM22 cur p area = specM22 cur p area := by
  unfold flowM22 specM22
  refine congrArg List.sum (List.map_congr_left fun ij _ => ?_)
  show gySpec cur (p.row + (ij.1 : ℚ)) (p.col + (ij.2 : ℚ)) *
      gySpec cur (p.row + (ij.1 : ℚ)) (p.col + (ij.2 : ℚ)) =
    gySpec cur (p.row + (ij.1 : ℚ)) (p.col + (ij.2 : ℚ)) ^ 2
  ring

lemma flowB0_eq_spec (cur : Image) (p : Point2D) (pre : Image) (area : ℕ) :
    flowB0 cur p pre area = specB0 cur p pre area :=
  rfl

lemma flowB1_eq_spec (cur : Image) (p : Point2D) (pre : Image) (area : ℕ) :
    flowB1 cur p pre area = specB1 cur p pre area :=
  rfl

lemma getOptFlow_dcol (cur pre : Image) (p : Point2D) (area : ℕ) :
    (getOptFlow cur p pre area).dcol =
      (pinv2 (flowM11 cur p area) (flowM12 cur p area) (flowM12 cur p area)
          (flowM22 cur p area)).1 * (-flowB0 cur p pre area) +
        (pinv2 (flowM11 cur p area) (flowM12 cur p area) (flowM12 cur p area)
          (flowM22 cur p area)).2.1 * (-flowB1 cur p pre area) :=
  rfl

lemma getOptFlow_drow (cur pre : Image) (p : Point2D) (area : ℕ) :
    (getOptFlow cur p pre area).drow =
      (pinv2 (flowM11 cur p area) (flowM12 cur p area) (flowM12 cur p area)
          (flowM22 cur p area)).2.2.1 * (-flowB0 cur p pre area) +
        (pinv2 (flowM11 cur p area) (flowM12 cur p area) (flowM12 cur p area)
          (flowM22 cur p area)).2.2.2 * (-flowB1 cur p pre area) :=
  rfl

lemma pinv2_solves (m11 m12 m22 b0 b1 : ℚ) (hdet : m11 * m22 - m12 * m12 ≠ 0) :
    m11 * ((pinv2 m11 m12 m12 m22).1 * (-b0) + (pinv2 m11 m12 m12 m22).2.1 * (-b1)) +
        m12 * ((pinv2 m11 m12 m12 m22).2.2.1 * (-b0) + (pinv2 m11 m12 m12 m22).2.2.2 * (-b1)) =
      -b0 ∧
    m12 * ((pinv2 m11 m12 m12 m22).1 * (-b0) + (pinv2 m11 m12 m12 m22).2.1 * (-b1)) +
        m22 * ((pinv2 m11 m12 m12 m22).2.2.1 * (-b0) + (pinv2 m11 m12 m12 m22).2.2.2 * (-b1)) =
      -b1 := by
  unfold pinv2
  rw [if_neg hdet]
  dsimp only
  constructor
  · field_simp
    ring
  · field_simp
    ring

/-- Claim C1: over the neighbourhood of `p`, `getOptFlow` accumulates the
structure matrix `M = [[Σgx², Σgx·gy],[Σgx·gy, Σgy²]]` and
`b = [Σgx·(I_cur − I_prev), Σgy·(I_cur − I_prev)]`, with `gx`, `gy` the
central-difference gradients of the current frame, and (when `M` is
invertible) its returned displacement `(drow, dcol)` solves `M·v = −b`,
being computed by (pseudo-)inverting `M`. -/
theorem C1_structure_matrix_solve (currentFrame preFrame : Image) (p : Point2D) (area : ℕ)
    (hdet : flowM11 currentFrame p area * flowM22 currentFrame p area -
      flowM12 currentFrame p area * flowM12 currentFrame p area ≠ 0) :
    flowM11 currentFrame p area = specM11 currentFrame p area ∧
    flowM12 currentFrame p area = specM12 currentFrame p area ∧
    flowM22 currentFrame p area = specM22 currentFrame p area ∧
    flowB0 currentFrame p preFrame area = specB0 currentFrame p preFrame area ∧
    flowB1 currentFrame p preFrame area = specB1 currentFrame p preFrame area ∧
    flowM11 currentFrame p area * (getOptFlow currentFrame p preFrame area).dcol +
        flowM12 currentFrame p area * (getOptFlow currentFrame p preFrame area).drow =
      -flowB0 currentFrame p preFrame area ∧
    flowM12 currentFrame p area * (getOptFlow currentFrame p preFrame area).dcol +
        flowM22 currentFrame p area * (getOptFlow currentFrame p preFrame area).drow =
      -flowB1 currentFrame p preFrame area := by
  obtain ⟨h1, h2⟩ :=
    pinv2_solves (flowM11 currentFrame p area) (flowM12 currentFrame p area)
      (flowM22 currentFrame p area) (flowB0 currentFrame p preFrame area)
      (flowB1 currentFrame p preFrame area) hdet
  refine ⟨flowM11_eq_spec _ _ _, flowM12_eq_spec _ _ _, flowM22_eq_spec _ _ _,
    flowB0_eq_spec _ _ _ _, flowB1_eq_spec _ _ _ _, ?_, ?_⟩
  · rw [getOptFlow_dcol, getOptFlow_drow]
    exact h1
  · rw [getOptFlow_dcol, getOptFlow_drow]
    exact h2

/-- Witness for C1 on the quadratic image `I(r,c) = r·c` at `p = (0,0)` with
`area = 2`: there the structure matrix is `(2 1; 1 2)`, determinant 3 ≠ 0. -/
theorem C1_witness :
    flowM11 (fun r c => r * c) ⟨0, 0⟩ 2 = specM11 (fun r c => r * c) ⟨0, 0⟩ 2 ∧
    flowM12 (fun r c => r * c) ⟨0, 0⟩ 2 = specM12 (fun r c => r * c) ⟨0, 0⟩ 2 ∧
    flowM22 (fun r c => r * c) ⟨0, 0⟩ 2 = specM22 (fun r c => r * c) ⟨0, 0⟩ 2 ∧
    flowB0 (fun r c => r * c) ⟨0, 0⟩ (fun _ _ => 0) 2 =
      specB0 (fun r c => r * c) ⟨0, 0⟩ (fun _ _ => 0) 2 ∧
    flowB1 (fun r c => r * c) ⟨0, 0⟩ (fun _ _ => 0) 2 =
      specB1 (fun r c => r * c) ⟨0, 0⟩ (fun _ _ => 0) 2 ∧
    flowM11 (fun r c => r * c) ⟨0, 0⟩ 2 *
        (getOptFlow (fun r c => r * c) ⟨0, 0⟩ (fun _ _ => 0) 2).dcol +
        flowM12 (fun r c => r * c) ⟨0, 0⟩ 2 *
          (getOptFlow (fun r c => r * c) ⟨0, 0⟩ (fun _ _ => 0) 2).drow =
      -flowB0 (fun r c => r * c) ⟨0, 0⟩ (fun _ _ => 0) 2 ∧
    flowM12 (fun r c => r * c) ⟨0, 0⟩ 2 *
        (getOptFlow (fun r c => r * c) ⟨0, 0⟩ (fun _ _ => 0) 2).dcol +
        flowM22 (fun r c => r * c) ⟨0, 0⟩ 2 *
          (getOptFlow (fun r c => r * c) ⟨0, 0⟩ (fun _ _ => 0) 2).drow =
      -flowB1 (fun r c => r * c) ⟨0, 0⟩ (fun _ _ => 0) 2 :=
  C1_structure_matrix_solve (fun r c => r * c) (fun _ _ => 0) ⟨0, 0⟩ 2 (by
    have hop : offsetPairs 2 = [(-1, -1), (-1, 0), (0, -1), (0, 0)] := by decide
    unfold flowM11 flowM12 flowM22
    rw [hop]
    simp [imGrad, ptOff, Point2D.dcol, Point2D.drow]
    norm_num)

lemma pinv2_zero : pinv2 0 0 0 0 = (0, 0, 0, 0) := by
  unfold pinv2
  norm_num

/-- Claim C7: on a uniform (textureless) patch — a constant current frame —
the gradient structure matrix is singular (in fact zero), and `getOptFlow`
still completes, returning the finite displacement `(0, 0)`: the singular
solve is absorbed by the SVD pseudo-inverse, not raised as an error. -/
theorem C7_uniform_patch_graceful (cur pre : Image) (p : Point2D) (area : ℕ) (k : ℚ)
    (huni : ∀ r c, cur r c = k) :
    flowM11 cur p area * flowM22 cur p area - flowM12 cur p area * flowM12 cur p area = 0 ∧
    getOptFlow cur p pre area = ⟨0, 0⟩ := by
  have hgrad : ∀ q : Point2D, imGrad cur q = ⟨0, 0⟩ := by
    intro q
    unfold imGrad
    rw [huni, huni, huni, huni]
    norm_num
  have h11 : flowM11 cur p area = 0 := by
    unfold flowM11
    apply List.sum_eq_zero
    intro x hx
    rw [List.mem_map] at hx
    obtain ⟨ij, _, rfl⟩ := hx
    rw [hgrad]
    show (0 : ℚ) * 0 = 0
    norm_num
  have h12 : flowM12 cur p area = 0 := by
    unfold flowM12
    apply List.sum_eq_zero
    intro x hx
    rw [List.mem_map] at hx
    obtain ⟨ij, _, rfl⟩ := hx
    rw [hgrad]
    show (0 : ℚ) * 0 = 0
    norm_num
  have h22 : flowM22 cur p area = 0 := by
    unfold flowM22
    apply List.sum_eq_zero
    intro x hx
    rw [List.mem_map] at hx
    obtain ⟨ij, _, rfl⟩ := hx
    rw [hgrad]
    show (0 : ℚ) * 0 = 0
    norm_num
  have hb0 : flowB0 cur p pre area = 0 := by
    unfold flowB0
    apply List.sum_eq_zero
    intro x hx
    rw [List.mem_map] at hx
    obtain ⟨ij, _, rfl⟩ := hx
    rw [hgrad]
    show (0 : ℚ) * _ = 0
    norm_num
  have hb1 : flowB1 cur p pre area = 0 := by
    unfold flowB1
    apply List.sum_eq_zero
    intro x hx
    rw [List.mem_map] at hx
    obtain ⟨ij, _, rfl⟩ := hx
    rw [hgrad]
    show (0 : ℚ) * _ = 0
    norm_num
  refine ⟨by rw [h11, h12, h22]; norm_num, ?_⟩
  unfold getOptFlow
  rw [h11, h12, h22, hb0, hb1]
  norm_num [pinv2_zero]

/-- Witness for C7: the constant frame `I = 7` with `area = 2` at `p = (0,0)`
against the non-constant previous frame `r + c`. -/
theorem C7_witness :
    flowM11 (fun _ _ => 7) ⟨0, 0⟩ 2 * flowM22 (fun _ _ => 7) ⟨0, 0⟩ 2 -
      flowM12 (fun _ _ => 7) ⟨0, 0⟩ 2 * flowM12 (fun _ _ => 7) ⟨0, 0⟩ 2 = 0 ∧
    getOptFlow (fun _ _ => 7) ⟨0, 0⟩ (fun r c => r + c) 2 = ⟨0, 0⟩ :=
  C7_uniform_patch_graceful (fun _ _ => 7) (fun r c => r + c) ⟨0, 0⟩ 2 7 fun _ _ => rfl

lemma idx_cast_bounds (area : ℕ) (i : ℤ) (h1 : -((area / 2 : ℕ) : ℤ) ≤ i)
    (h2 : i < ((area / 2 : ℕ) : ℤ)) :
    -((area / 2 : ℕ) : ℚ) ≤ (i : ℚ) ∧ (i : ℚ) ≤ ((area / 2 : ℕ) : ℚ) - 1 := by
  constructor
  · exact_mod_cast h1
  · have h3 : i ≤ ((area / 2 : ℕ) : ℤ) - 1 := by omega
    exact_mod_cast h3

lemma imGrad_congr_local (cur1 cur2 : Image) (p : Point2D) (area : ℕ) (ij : ℤ × ℤ)
    (hmem : ij ∈ offsetPairs area)
    (hcur : ∀ r c : ℚ,
      p.row - ((area / 2 : ℕ) : ℚ) - 1 ≤ r → r ≤ p.row + ((area / 2 : ℕ) : ℚ) →
      p.col - ((area / 2 : ℕ) : ℚ) - 1 ≤ c → c ≤ p.col + ((area / 2 : ℕ) : ℚ) →
      cur1 r c = cur2 r c) :
    imGrad cur1 (ptOff p ij) = imGrad cur2 (ptOff p ij) := by
  obtain ⟨hi1, hi2, hj1, hj2⟩ := mem_offsetPairs area ij hmem
  obtain ⟨hi1q, hi2q⟩ := idx_cast_bounds area ij.1 hi1 hi2
  obtain ⟨hj1q, hj2q⟩ := idx_cast_bounds area ij.2 hj1 hj2
  unfold imGrad ptOff
  dsimp only
  rw [hcur (p.row + (ij.1 : ℚ) + 1) (p.col + (ij.2 : ℚ))
      (by linarith) (by linarith) (by linarith) (by linarith),
    hcur (p.row + (ij.1 : ℚ) - 1) (p.col + (ij.2 : ℚ))
      (by linarith) (by linarith) (by linarith) (by linarith),
    hcur (p.row + (ij.1 : ℚ)) (p.col + (ij.2 : ℚ) + 1)
      (by linarith) (by linarith) (by linarith) (by linarith),
    hcur (p.row + (ij.1 : ℚ)) (p.col + (ij.2 : ℚ) - 1)
      (by linarith) (by linarith) (by linarith) (by linarith)]

lemma flowM11_congr_local (cur1 cur2 : Image) (p : Point2D) (area : ℕ)
    (hcur : ∀ r c : ℚ,
      p.row - ((area / 2 : ℕ) : ℚ) - 1 ≤ r → r ≤ p.row + ((area / 2 : ℕ) : ℚ) →
      p.col - ((area / 2 : ℕ) : ℚ) - 1 ≤ c → c ≤ p.col + ((area / 2 : ℕ) : ℚ) →
      cur1 r c = cur2 r c) :
    flowM11 cur1 p area = flowM11 cur2 p area := by
  unfold flowM11
  refine congrArg List.sum (List.map_congr_left fun ij hmem => ?_)
  rw [imGrad_congr_local cur1 cur2 p area ij hmem hcur]

lemma flowM12_congr_local (cur1 cur2 : Image) (p : Point2D) (area : ℕ)
    (hcur : ∀ r c : ℚ,
      p.row - ((area / 2 : ℕ) : ℚ) - 1 ≤ r → r ≤ p.row + ((area / 2 : ℕ) : ℚ) →
      p.col - ((area / 2 : ℕ) : ℚ) - 1 ≤ c → c ≤ p.col + ((area / 2 : ℕ) : ℚ) →
      cur1 r c = cur2 r c) :
    flowM12 cur1 p area = flowM12 cur2 p area := by
  unfold flowM12
  refine congrArg List.sum (List.map_congr_left fun ij hmem => ?_)
  rw [imGrad_congr_local cur1 cur2 p area ij hmem hcur]

lemma flowM22_congr_local (cur1 cur2 : Image) (p : Point2D) (area : ℕ)
    (hcur : ∀ r c : ℚ,
      p.row - ((area / 2 : ℕ) : ℚ) - 1 ≤ r → r ≤ p.row + ((area / 2 : ℕ) : ℚ) →
      p.col - ((area / 2 : ℕ) : ℚ) - 1 ≤ c → c ≤ p.col + ((area / 2 : ℕ) : ℚ) →
      cur1 r c = cur2 r c) :
    flowM22 cur1 p area = flowM22 cur2 p area := by
  unfold flowM22
  refine congrArg List.sum (List.map_congr_left fun ij hmem => ?_)
  rw [imGrad_congr_local cur1 cur2 p area ij hmem hcur]

lemma flowB0_congr_local (cur1 cur2 pre1 pre2 : Image) (p : Point2D) (area : ℕ)
    (hcur : ∀ r c : ℚ,
      p.row - ((area / 2 : ℕ) : ℚ) - 1 ≤ r → r ≤ p.row + ((area / 2 : ℕ) : ℚ) →
      p.col - ((area / 2 : ℕ) : ℚ) - 1 ≤ c → c ≤ p.col + ((area / 2 : ℕ) : ℚ) →
      cur1 r c = cur2 r c)
    (hpre : ∀ r c : ℚ,
      p.row - ((area / 2 : ℕ) : ℚ) - 1 ≤ r → r ≤ p.row + ((area / 2 : ℕ) : ℚ) →
      p.col - ((area / 2 : ℕ) : ℚ) - 1 ≤ c → c ≤ p.col + ((area / 2 : ℕ) : ℚ) →
      pre1 r c = pre2 r c) :
    flowB0 cur1 p pre1 area = flowB0 cur2 p pre2 area := by
  unfold flowB0
  refine congrArg List.sum (List.map_congr_left fun ij hmem => ?_)
  obtain ⟨hi1, hi2, hj1, hj2⟩ := mem_offsetPairs area ij hmem
  obtain ⟨hi1q, hi2q⟩ := idx_cast_bounds area ij.1 hi1 hi2
  obtain ⟨hj1q, hj2q⟩ := idx_cast_bounds area ij.2 hj1 hj2
  show (imGrad cur1 (ptOff p ij)).dcol *
      (cur1 (p.row + (ij.1 : ℚ)) (p.col + (ij.2 : ℚ)) -
        pre1 (p.row + (ij.1 : ℚ)) (p.col + (ij.2 : ℚ))) =
    (imGrad cur2 (ptOff p ij)).dcol *
      (cur2 (p.row + (ij.1 : ℚ)) (p.col + (ij.2 : ℚ)) -
        pre2 (p.row + (ij.1 : ℚ)) (p.col + (ij.2 : ℚ)))
  rw [imGrad_congr_local cur1 cur2 p area ij hmem hcur,
    hcur (p.row + (ij.1 : ℚ)) (p.col + (ij.2 : ℚ))
      (by linarith) (by linarith) (by linarith) (by linarith),
    hpre (p.row + (ij.1 : ℚ)) (p.col + (ij.2 : ℚ))
      (by linarith) (by linarith) (by linarith) (by linarith)]

lemma flowB1_congr_local (cur1 cur2 pre1 pre2 : Image) (p : Point2D) (area : ℕ)
    (hcur : ∀ r c : ℚ,
      p.row - ((area / 2 : ℕ) : ℚ) - 1 ≤ r → r ≤ p.row + ((area / 2 : ℕ) : ℚ) →
      p.col - ((area / 2 : ℕ) : ℚ) - 1 ≤ c → c ≤ p.col + ((area / 2 : ℕ) : ℚ) →
      cur1 r c = cur2 r c)
    (hpre : ∀ r c : ℚ,
      p.row - ((area / 2 : ℕ) : ℚ) - 1 ≤ r → r ≤ p.row + ((area / 2 : ℕ) : ℚ) →
      p.col - ((area / 2 : ℕ) : ℚ) - 1 ≤ c → c ≤ p.col + ((area / 2 : ℕ) : ℚ) →
      pre1 r c = pre2 r c) :
    flowB1 cur1 p pre1 area = flowB1 cur2 p pre2 area := by
  unfold flowB1
  refine congrArg List.sum (List.map_congr_left fun ij hmem => ?_)
  obtain ⟨hi1, hi2, hj1, hj2⟩ := mem_offsetPairs area ij hmem
  obtain ⟨hi1q, hi2q⟩ := idx_cast_bounds area ij.1 hi1 hi2
  obtain ⟨hj1q, hj2q⟩ := idx_cast_bounds area ij.2 hj1 hj2
  show (imGrad cur1 (ptOff p ij)).drow *
      (cur1 (p.row + (ij.1 : ℚ)) (p.col + (ij.2 : ℚ)) -
        pre1 (p.row + (ij.1 : ℚ)) (p.col + (ij.2 : ℚ))) =
    (imGrad cur2 (ptOff p ij)).drow *
      (cur2 (p.row + (ij.1 : ℚ)) (p.col + (ij.2 : ℚ)) -
        pre2 (p.row + (ij.1 : ℚ)) (p.col + (ij.2 : ℚ)))
  rw [imGrad_congr_local cur1 cur2 p area ij hmem hcur,
    hcur (p.row + (ij.1 : ℚ)) (p.col + (ij.2 : ℚ))
      (by linarith) (by linarith) (by linarith) (by linarith),
    hpre (p.row + (ij.1 : ℚ)) (p.col + (ij.2 : ℚ))
      (by linarith) (by linarith) (by linarith) (by linarith)]

/-- Claim C10: `getOptFlow` at `p` depends only on the pixels with row in
`[p.row − h − 1, p.row + h]` and column in `[p.col − h − 1, p.col + h]`
(`h = OPTICAL_FLOW_POINT_AREA/2`): two frame pairs agreeing on that patch
yield the same displacement. -/
theorem C10_locality (cur1 cur2 pre1 pre2 : Image) (p : Point2D) (area : ℕ)
    (hcur : ∀ r c : ℚ,
      p.row - ((area / 2 : ℕ) : ℚ) - 1 ≤ r → r ≤ p.row + ((area / 2 : ℕ) : ℚ) →
      p.col - ((area / 2 : ℕ) : ℚ) - 1 ≤ c → c ≤ p.col + ((area / 2 : ℕ) : ℚ) →
      cur1 r c = cur2 r c)
    (hpre : ∀ r c : ℚ,
      p.row - ((area / 2 : ℕ) : ℚ) - 1 ≤ r → r ≤ p.row + ((area / 2 : ℕ) : ℚ) →
      p.col - ((area / 2 : ℕ) : ℚ) - 1 ≤ c → c ≤ p.col + ((area / 2 : ℕ) : ℚ) →
      pre1 r c = pre2 r c) :
    getOptFlow cur1 p pre1 area = getOptFlow cur2 p pre2 area := by
  unfold getOptFlow
  rw [flowM11_congr_local cur1 cur2 p area hcur, flowM12_congr_local cur1 cur2 p area hcur,
    flowM22_congr_local cur1 cur2 p area hcur,
    flowB0_congr_local cur1 cur2 pre1 pre2 p area hcur hpre,
    flowB1_congr_local cur1 cur2 pre1 pre2 p area hcur hpre]

/-- Witness for C10 with `area = 2`, `p = (0,0)`: the two current frames
agree on the patch rows/columns `[-2, 1]` and differ far away (rows ≥ 50),
yet the computed flows coincide. -/
theorem C10_witness :
    getOptFlow (fun r c => r + c) ⟨0, 0⟩ (fun _ _ => 0) 2 =
      getOptFlow (fun r c => if 50 ≤ r then 99 else r + c) ⟨0, 0⟩ (fun _ _ => 0) 2 :=
  C10_locality (fun r c => r + c) (fun r c => if 50 ≤ r then 99 else r + c)
    (fun _ _ => 0) (fun _ _ => 0) ⟨0, 0⟩ 2
    (by
      intro r c h1 h2 h3 h4
      show r + c = if (50 : ℚ) ≤ r then 99 else r + c
      norm_num at h2
      rw [if_neg (by linarith)])
    (fun _ _ _ _ _ _ => rfl)

